import Mathlib

/-!
# Audio configuration menus of `src/app/AudioWidget.cpp`

A shallow embedding of the four choice widgets (driver, device, sample rate,
block size) that drive an `AudioIO`, the menus they build in `onAction`, the
summaries they show after `onChange`, and the calls their menu items make.

Conventions of the embedding:

* a C++ `int` is an `Int`; the two `for` loops of
  `AudioDeviceChoice::onAction` update their loop variables through `addInt`,
  which fails with `LoopError.overflow` when the sum leaves the 32-bit range;
* the loops take fuel, one unit per evaluation of a loop test, and fail with
  `LoopError.outOfFuel` when it runs out, so that a loop that never ends is
  the one that fails for every amount of fuel;
* the menu a handler builds is the list of the children it adds, in order;
* the effect of a menu item's `onAction` is the list of calls it makes.
-/

namespace rack

/-! ## Data model -/

/-- Calls a menu item makes on the `AudioIO` it points to, or on the engine.
Each call carries the values of the `int` fields written at the call site. -/
inductive Call where
  | setDriver (driver : Int)
  | setDevice (device : Int) (offset : Option Int)
  | setSampleRate (sampleRate : Int)
  | engineSetSampleRate (sampleRate : Int)
  | setBlockSize (blockSize : Int)
  deriving DecidableEq, Repr

/-- The part of `AudioIO` (declared in `audio.hpp`) the widgets read: its
public fields and the results of its query methods. `deviceLabel` is the
detail text of the real devices, see `AudioIO.getDeviceDetail`. -/
structure AudioIO where
  driver : Int
  device : Int
  offset : Int
  sampleRate : Int
  blockSize : Int
  maxChannels : Int
  getDrivers : List Int
  getDriverName : Int → String
  getDeviceCount : Int
  getDeviceChannels : Int → Int
  deviceLabel : Int → Int → String
  getSampleRates : List Int
  getBlockSizes : List Int

/-- Modelled from the spec: `AudioIO::getDeviceDetail`, declared in `audio.hpp`
and defined outside `AudioWidget.cpp`. The spec gives `deviceDetail(device,
offset)` as the "human label combining device name and the channel range" of
a device, and gives the summary of device id `-1` ("no device") as the literal
"(No device)", which `AudioDeviceChoice::onChange` writes in place of an empty
detail: a negative device id names no device and has the empty detail, a real
device has the label the driver reports. -/
def AudioIO.getDeviceDetail (io : AudioIO) (device offset : Int) : String :=
  if device < 0 then "" else io.deviceLabel device offset

/-- The struct `AudioDriverItem`. In every item `text` is the label handed to
`ChoiceMenuItem::create` and `checkmark` is the condition handed to
`CHECKMARK`; the pointer `audioIO` is the state the calls of `onAction` go to. -/
structure AudioDriverItem where
  text : String
  checkmark : Bool
  driver : Int
  deriving DecidableEq, Repr

/-- The struct `AudioDeviceItem`. The "(No device)" item is created without an
assignment to `offset`, which is `none` there. -/
structure AudioDeviceItem where
  text : String
  checkmark : Bool
  device : Int
  offset : Option Int
  deriving DecidableEq, Repr

/-- The struct `AudioSampleRateItem`. -/
structure AudioSampleRateItem where
  text : String
  checkmark : Bool
  sampleRate : Int
  deriving DecidableEq, Repr

/-- The struct `AudioBlockSizeItem`. -/
structure AudioBlockSizeItem where
  text : String
  checkmark : Bool
  blockSize : Int
  deriving DecidableEq, Repr

/-- A child of a menu: a `MenuLabel` (not selectable) or a selectable item. -/
inductive MenuEntry (ι : Type) where
  | label (text : String)
  | item (i : ι)
  deriving DecidableEq, Repr

/-- The selectable items of a menu, in menu order. -/
def MenuEntry.items {ι : Type} : List (MenuEntry ι) → List ι
  | [] => []
  | .label _ :: es => MenuEntry.items es
  | .item i :: es => i :: MenuEntry.items es

/-- The texts of the `MenuLabel` children of a menu, in menu order. -/
def MenuEntry.labels {ι : Type} : List (MenuEntry ι) → List String
  | [] => []
  | .label t :: es => t :: MenuEntry.labels es
  | .item _ :: es => MenuEntry.labels es

/-! ## Item actions -/

/-- The calls of `AudioDriverItem::onAction`. -/
def AudioDriverItem.onAction (i : AudioDriverItem) : List Call :=
  [Call.setDriver i.driver]

/-- The calls of `AudioDeviceItem::onAction`. -/
def AudioDeviceItem.onAction (i : AudioDeviceItem) : List Call :=
  [Call.setDevice i.device i.offset]

/-- The calls of `AudioSampleRateItem::onAction`, in order. -/
def AudioSampleRateItem.onAction (i : AudioSampleRateItem) : List Call :=
  [Call.setSampleRate i.sampleRate, Call.engineSetSampleRate i.sampleRate]

/-- The calls of `AudioBlockSizeItem::onAction`. -/
def AudioBlockSizeItem.onAction (i : AudioBlockSizeItem) : List Call :=
  [Call.setBlockSize i.blockSize]

/-- What choosing a child of a menu does: nothing for a label, the item's
action for an item. -/
def MenuEntry.onAction {ι : Type} (act : ι → List Call) : MenuEntry ι → List Call
  | .label _ => []
  | .item i => act i

/-! ## Machine integers and loops -/

/-- The largest `int`. -/
def INT_MAX : Int := 2147483647

/-- The smallest `int`. -/
def INT_MIN : Int := -2147483648

/-- Why a run of a loop gives no menu. -/
inductive LoopError where
  | outOfFuel
  | overflow
  deriving DecidableEq, Repr

/-- Signed 32-bit addition; a sum outside the range of `int` is an error. -/
def addInt (a b : Int) : Except LoopError Int :=
  if INT_MIN ≤ a + b ∧ a + b ≤ INT_MAX then .ok (a + b) else .error .overflow

/-- The rendering `%d` of an `int`. -/
def fmtInt (n : Int) : String := toString n

/-! ## AudioDriverChoice -/

/-- The menu built by `AudioDriverChoice::onAction`. -/
def AudioDriverChoice.onAction (io : AudioIO) : List (MenuEntry AudioDriverItem) :=
  .label "Audio driver" ::
    io.getDrivers.map fun driver =>
      .item { text := io.getDriverName driver,
              checkmark := decide (driver = io.driver),
              driver := driver }

/-- The `text` written by `AudioDriverChoice::onChange`. -/
def AudioDriverChoice.onChange (io : AudioIO) : String :=
  io.getDriverName io.driver

/-! ## AudioDeviceChoice -/

/-- The field `AudioDeviceChoice::maxTotalChannels`: "Prevents devices with a
ridiculous number of channels from being displayed". -/
def maxTotalChannels : Int := 128

/-- The item the inner loop of `AudioDeviceChoice::onAction` creates. -/
def deviceItem (io : AudioIO) (device offset : Int) : AudioDeviceItem :=
  { text := io.getDeviceDetail device offset,
    checkmark := decide (device = io.device ∧ offset = io.offset),
    device := device,
    offset := some offset }

/-- The inner loop of `AudioDeviceChoice::onAction`,
`for (int offset = 0; offset < channels; offset += maxChannels)`, from the
state `(offset, menu)`. The result is the state the loop is left in. -/
def offsetLoop (io : AudioIO) (device channels : Int) :
    Nat → Int → List (MenuEntry AudioDeviceItem) →
      Except LoopError (Int × List (MenuEntry AudioDeviceItem))
  | 0, _, _ => .error .outOfFuel
  | fuel + 1, offset, menu =>
    if offset < channels then
      match addInt offset io.maxChannels with
      | .ok offset' =>
        offsetLoop io device channels fuel offset'
          (menu ++ [.item (deviceItem io device offset)])
      | .error e => .error e
    else .ok (offset, menu)

/-- The outer loop of `AudioDeviceChoice::onAction`,
`for (int device = 0; device < deviceCount; device++)`, from the state
`(device, menu)`. -/
def deviceLoop (io : AudioIO) (deviceCount : Int) :
    Nat → Int → List (MenuEntry AudioDeviceItem) →
      Except LoopError (List (MenuEntry AudioDeviceItem))
  | 0, _, _ => .error .outOfFuel
  | fuel + 1, device, menu =>
    if device < deviceCount then
      match offsetLoop io device (min maxTotalChannels (io.getDeviceChannels device))
          fuel 0 menu with
      | .ok (_, menu') =>
        match addInt device 1 with
        | .ok device' => deviceLoop io deviceCount fuel device' menu'
        | .error e => .error e
      | .error e => .error e
    else .ok menu

/-- The "(No device)" item of `AudioDeviceChoice::onAction`. -/
def noDeviceItem (io : AudioIO) : AudioDeviceItem :=
  { text := "(No device)",
    checkmark := decide (-1 = io.device),
    device := -1,
    offset := none }

/-- The menu built by `AudioDeviceChoice::onAction`: heading, "(No device)"
item, then the outer loop from device 0. -/
def AudioDeviceChoice.onAction (io : AudioIO) (fuel : Nat) :
    Except LoopError (List (MenuEntry AudioDeviceItem)) :=
  deviceLoop io io.getDeviceCount fuel 0
    [.label "Audio device", .item (noDeviceItem io)]

/-- The display state `onChange` writes: `text` and `color.a`. The two
values written to `color.a`, `0.5f` and `1.f`, are exact. -/
structure Summary where
  text : String
  alpha : Rat
  deriving DecidableEq, Repr

/-- The body of `AudioDeviceChoice::onChange` after `text` has received the
result of `getDeviceDetail`: the test `text.empty()` and its two branches. -/
def AudioDeviceChoice.summaryOf (text : String) : Summary :=
  if text = "" then { text := "(No device)", alpha := 1 / 2 }
  else { text := text, alpha := 1 }

/-- The display state after `AudioDeviceChoice::onChange`. -/
def AudioDeviceChoice.onChange (io : AudioIO) : Summary :=
  AudioDeviceChoice.summaryOf (io.getDeviceDetail io.device io.offset)

/-! ## AudioSampleRateChoice -/

/-- The menu built by `AudioSampleRateChoice::onAction`. -/
def AudioSampleRateChoice.onAction (io : AudioIO) : List (MenuEntry AudioSampleRateItem) :=
  let sampleRates := io.getSampleRates
  [.label "Sample rate"] ++
    (if sampleRates.isEmpty then [.label "(Locked by device)"] else []) ++
    sampleRates.map fun sampleRate =>
      .item { text := fmtInt sampleRate ++ " Hz",
              checkmark := decide (sampleRate = io.sampleRate),
              sampleRate := sampleRate }

/-! ## AudioBlockSizeChoice -/

/-- The menu built by `AudioBlockSizeChoice::onAction`. The latency
`(float) blockSize / sampleRate * 1000.0` and its `%.1f` rendering are
floating point; `fmtLatency blockSize sampleRate` stands for the rendered
text. -/
def AudioBlockSizeChoice.onAction (fmtLatency : Int → Int → String) (io : AudioIO) :
    List (MenuEntry AudioBlockSizeItem) :=
  let blockSizes := io.getBlockSizes
  [.label "Block size"] ++
    (if blockSizes.isEmpty then [.label "(Locked by device)"] else []) ++
    blockSizes.map fun blockSize =>
      let latency := fmtLatency blockSize io.sampleRate
      .item { text := fmtInt blockSize ++ " (" ++ latency ++ " ms)",
              checkmark := decide (blockSize = io.blockSize),
              blockSize := blockSize }

/-- The `text` written by `AudioBlockSizeChoice::onChange`. -/
def AudioBlockSizeChoice.onChange (io : AudioIO) : String :=
  fmtInt io.blockSize

/-! ## Sample states -/

/-- A state with three devices of 2, 20 and 1000 channels, device 1 selected
at offset 8. -/
def sampleState : AudioIO where
  driver := 0
  device := 1
  offset := 8
  sampleRate := 44100
  blockSize := 512
  maxChannels := 8
  getDrivers := [0, 1]
  getDriverName := fun d => "driver " ++ fmtInt d
  getDeviceCount := 3
  getDeviceChannels := fun d => if d = 0 then 2 else if d = 1 then 20 else 1000
  deviceLabel := fun d o => "device " ++ fmtInt d ++ " from " ++ fmtInt o
  getSampleRates := [44100, 48000]
  getBlockSizes := [256, 512]

/-- The sample state with no device selected. -/
def noDeviceState : AudioIO := { sampleState with device := -1 }

/-- The sample state with a device that reports no legal values. -/
def lockedState : AudioIO := { sampleState with getSampleRates := [], getBlockSizes := [] }

/-- The sample state with `maxChannels = 0`. -/
def stuckState : AudioIO := { sampleState with maxChannels := 0 }

/-- A state with `maxChannels = 0` and no device at all. -/
def idleState : AudioIO := { sampleState with maxChannels := 0, getDeviceCount := 0 }

/-! ## Closed forms used in the statements and proofs -/

/-- Number of passes through the body of a loop
`for (offset = 0; offset < channels; offset += maxChannels)`. -/
def itemCount (channels maxChannels : Int) : Nat :=
  ((channels + maxChannels - 1) / maxChannels).toNat

/-- The items the inner loop adds from `offset` on, in closed form. -/
def offsetItems (io : AudioIO) (device offset : Int) (n : Nat) :
    List (MenuEntry AudioDeviceItem) :=
  (List.range n).map fun (k : Nat) =>
    .item (deviceItem io device (offset + (k : Int) * io.maxChannels))

/-- The channel count the outer loop of `AudioDeviceChoice::onAction` hands to
the inner loop. -/
def shownChannels (io : AudioIO) (device : Int) : Int :=
  min maxTotalChannels (io.getDeviceChannels device)

/-- The children added for the `k` devices `first, first + 1, ...`, in closed form. -/
def deviceItems (io : AudioIO) (first : Int) (k : Nat) : List (MenuEntry AudioDeviceItem) :=
  (List.range k).flatMap fun (j : Nat) =>
    offsetItems io (first + (j : Int)) 0
      (itemCount (shownChannels io (first + (j : Int))) io.maxChannels)

/-- The menu of `AudioDeviceChoice::onAction` in closed form. -/
def deviceMenu (io : AudioIO) : List (MenuEntry AudioDeviceItem) :=
  [.label "Audio device", .item (noDeviceItem io)] ++
    deviceItems io 0 io.getDeviceCount.toNat

/-- The items of a menu that belong to device `d`, in menu order. -/
def itemsOfDevice (menu : List (MenuEntry AudioDeviceItem)) (d : Int) : List AudioDeviceItem :=
  (MenuEntry.items menu).filter fun i => decide (i.device = d)

/-! ## The loops of `AudioDeviceChoice::onAction` -/

theorem itemCount_of_nonpos {c m : Int} (hm : 1 ≤ m) (hc : c ≤ 0) : itemCount c m = 0 := by
  unfold itemCount
  have h : (c + m - 1) / m < 1 := Int.ediv_lt_of_lt_mul (by omega) (by omega)
  omega

theorem itemCount_of_pos {c m : Int} (hm : 1 ≤ m) (hc : 0 < c) :
    itemCount c m = itemCount (c - m) m + 1 := by
  unfold itemCount
  have h1 : (c + m - 1) / m = (c - m + m - 1) / m + 1 := by
    have : c + m - 1 = (c - m + m - 1) + 1 * m := by ring
    rw [this, Int.add_mul_ediv_right _ _ (by omega)]
  have h2 : 0 ≤ (c - m + m - 1) / m := Int.ediv_nonneg (by omega) (by omega)
  omega

theorem addInt_ok {a b : Int} (h1 : INT_MIN ≤ a + b) (h2 : a + b ≤ INT_MAX) :
    addInt a b = .ok (a + b) := by
  simp [addInt, h1, h2]

theorem offsetItems_succ (io : AudioIO) (device offset : Int) (n : Nat) :
    offsetItems io device offset (n + 1) =
      .item (deviceItem io device offset) ::
        offsetItems io device (offset + io.maxChannels) n := by
  unfold offsetItems
  rw [List.range_succ_eq_map]
  simp only [List.map_cons, List.map_map]
  congr 1
  · simp
  · apply List.map_congr_left
    intro k _
    simp only [Function.comp, Nat.succ_eq_add_one, Nat.cast_add, Nat.cast_one]
    congr 2
    ring

theorem offsetLoop_run (io : AudioIO) (device channels : Int)
    (hm : 1 ≤ io.maxChannels) (hM : io.maxChannels ≤ INT_MAX) (hc : channels ≤ maxTotalChannels) :
    ∀ (fuel : Nat) (offset : Int) (menu : List (MenuEntry AudioDeviceItem)),
      (offset = 0 ∨ io.maxChannels ≤ offset) → (channels - offset).toNat < fuel →
      offsetLoop io device channels fuel offset menu =
        .ok (offset + itemCount (channels - offset) io.maxChannels * io.maxChannels,
             menu ++ offsetItems io device offset (itemCount (channels - offset) io.maxChannels)) := by
  intro fuel
  induction fuel with
  | zero => intro offset menu _ h; omega
  | succ fuel ih =>
    intro offset menu ho hf
    unfold offsetLoop
    unfold maxTotalChannels at hc
    by_cases hlt : offset < channels
    · have hadd : addInt offset io.maxChannels = .ok (offset + io.maxChannels) := by
        apply addInt_ok <;> unfold INT_MIN INT_MAX at * <;> omega
      rw [if_pos hlt, hadd]
      simp only
      rw [ih (offset + io.maxChannels) _ (Or.inr (by omega)) (by omega)]
      rw [itemCount_of_pos hm (by omega : 0 < channels - offset), offsetItems_succ]
      have e : channels - (offset + io.maxChannels) = channels - offset - io.maxChannels := by ring
      rw [e]
      simp only [List.append_assoc, List.singleton_append, Nat.cast_add, Nat.cast_one]
      congr 2
      ring
    · rw [if_neg hlt, itemCount_of_nonpos hm (by omega)]
      simp [offsetItems]

theorem deviceItems_succ (io : AudioIO) (first : Int) (k : Nat) :
    deviceItems io first (k + 1) =
      offsetItems io first 0 (itemCount (shownChannels io first) io.maxChannels) ++
        deviceItems io (first + 1) k := by
  unfold deviceItems
  rw [List.range_succ_eq_map, List.flatMap_cons, List.flatMap_map]
  congr 1
  · simp
  · congr 1
    funext j
    have e : first + ((j.succ : Nat) : Int) = first + 1 + (j : Int) := by
      simp only [Nat.succ_eq_add_one, Nat.cast_add, Nat.cast_one]; ring
    simp only [Function.comp, e]

theorem deviceLoop_run (io : AudioIO) (deviceCount : Int)
    (hm : 1 ≤ io.maxChannels) (hM : io.maxChannels ≤ INT_MAX) (hd : deviceCount ≤ INT_MAX) :
    ∀ (fuel : Nat) (device : Int) (menu : List (MenuEntry AudioDeviceItem)),
      0 ≤ device → (deviceCount - device).toNat + 129 < fuel →
      deviceLoop io deviceCount fuel device menu =
        .ok (menu ++ deviceItems io device (deviceCount - device).toNat) := by
  intro fuel
  induction fuel with
  | zero => intro device menu _ h; omega
  | succ fuel ih =>
    intro device menu h0 hf
    unfold deviceLoop
    by_cases hlt : device < deviceCount
    · rw [if_pos hlt]
      have hin := offsetLoop_run io device (min maxTotalChannels (io.getDeviceChannels device))
        hm hM (min_le_left _ _) fuel 0 menu (Or.inl rfl)
        (by have := min_le_left maxTotalChannels (io.getDeviceChannels device)
            unfold maxTotalChannels at this ⊢; omega)
      rw [hin]
      have hadd : addInt device 1 = .ok (device + 1) := by
        apply addInt_ok <;> unfold INT_MIN INT_MAX at * <;> omega
      simp only [hadd]
      rw [ih (device + 1) _ (by omega) (by omega)]
      have e : (deviceCount - device).toNat = (deviceCount - (device + 1)).toNat + 1 := by omega
      rw [e, deviceItems_succ]
      simp [shownChannels]
    · rw [if_neg hlt]
      have e : (deviceCount - device).toNat = 0 := by omega
      simp [e, deviceItems]

theorem onAction_run (io : AudioIO)
    (hm : 1 ≤ io.maxChannels) (hM : io.maxChannels ≤ INT_MAX) (hd : io.getDeviceCount ≤ INT_MAX)
    (fuel : Nat) (hf : io.getDeviceCount.toNat + 129 < fuel) :
    AudioDeviceChoice.onAction io fuel = .ok (deviceMenu io) := by
  unfold AudioDeviceChoice.onAction deviceMenu
  rw [deviceLoop_run io _ hm hM hd fuel 0 _ (le_refl 0) (by simpa using hf)]
  simp

theorem offsetLoop_fuel_succ (io : AudioIO) (device channels : Int) :
    ∀ (fuel : Nat) (offset : Int) (menu : List (MenuEntry AudioDeviceItem))
      (r : Int × List (MenuEntry AudioDeviceItem)),
      offsetLoop io device channels fuel offset menu = .ok r →
      offsetLoop io device channels (fuel + 1) offset menu = .ok r := by
  intro fuel
  induction fuel with
  | zero => intro offset menu r h; simp [offsetLoop] at h
  | succ fuel ih =>
    intro offset menu r h
    rw [offsetLoop] at h
    rw [offsetLoop]
    by_cases hlt : offset < channels
    · rw [if_pos hlt] at h ⊢
      cases hadd : addInt offset io.maxChannels with
      | error e => rw [hadd] at h; simp at h
      | ok o' =>
        rw [hadd] at h
        simp only at h ⊢
        exact ih _ _ _ h
    · rw [if_neg hlt] at h ⊢
      exact h

theorem offsetLoop_fuel_mono (io : AudioIO) (device channels : Int)
    {fuel fuel' : Nat} (hle : fuel ≤ fuel') (offset : Int)
    (menu : List (MenuEntry AudioDeviceItem)) (r : Int × List (MenuEntry AudioDeviceItem))
    (h : offsetLoop io device channels fuel offset menu = .ok r) :
    offsetLoop io device channels fuel' offset menu = .ok r := by
  induction hle with
  | refl => exact h
  | step _ ih => exact offsetLoop_fuel_succ io device channels _ _ _ _ ih

theorem deviceLoop_fuel_succ (io : AudioIO) (deviceCount : Int) :
    ∀ (fuel : Nat) (device : Int) (menu r : List (MenuEntry AudioDeviceItem)),
      deviceLoop io deviceCount fuel device menu = .ok r →
      deviceLoop io deviceCount (fuel + 1) device menu = .ok r := by
  intro fuel
  induction fuel with
  | zero => intro device menu r h; simp [deviceLoop] at h
  | succ fuel ih =>
    intro device menu r h
    rw [deviceLoop] at h
    rw [deviceLoop]
    by_cases hlt : device < deviceCount
    · rw [if_pos hlt] at h ⊢
      cases hin : offsetLoop io device (min maxTotalChannels (io.getDeviceChannels device))
          fuel 0 menu with
      | error e => rw [hin] at h; simp at h
      | ok p =>
        obtain ⟨o, menu'⟩ := p
        rw [hin] at h
        rw [offsetLoop_fuel_succ io device _ fuel 0 menu _ hin]
        simp only at h ⊢
        cases hadd : addInt device 1 with
        | error e => rw [hadd] at h; simp at h
        | ok d' =>
          rw [hadd] at h
          simp only at h ⊢
          exact ih _ _ _ h
    · rw [if_neg hlt] at h ⊢
      exact h

theorem deviceLoop_fuel_mono (io : AudioIO) (deviceCount : Int)
    {fuel fuel' : Nat} (hle : fuel ≤ fuel') (device : Int)
    (menu r : List (MenuEntry AudioDeviceItem))
    (h : deviceLoop io deviceCount fuel device menu = .ok r) :
    deviceLoop io deviceCount fuel' device menu = .ok r := by
  induction hle with
  | refl => exact h
  | step _ ih => exact deviceLoop_fuel_succ io deviceCount _ _ _ _ ih

/-- Under the precondition every menu the handler builds is the closed form. -/
theorem onAction_eq_deviceMenu (io : AudioIO)
    (hm : 1 ≤ io.maxChannels) (hM : io.maxChannels ≤ INT_MAX) (hd : io.getDeviceCount ≤ INT_MAX)
    (fuel : Nat) (menu : List (MenuEntry AudioDeviceItem))
    (h : AudioDeviceChoice.onAction io fuel = .ok menu) : menu = deviceMenu io := by
  have h1 := deviceLoop_fuel_mono io io.getDeviceCount
    (Nat.le_max_left fuel (io.getDeviceCount.toNat + 130)) 0 _ menu h
  have h2 := onAction_run io hm hM hd (max fuel (io.getDeviceCount.toNat + 130))
    (by have := Nat.le_max_right fuel (io.getDeviceCount.toNat + 130); omega)
  unfold AudioDeviceChoice.onAction at h2
  rw [h1] at h2
  exact Except.ok.inj h2

/-! ## Items and labels of a menu -/

theorem MenuEntry.items_append {ι : Type} (a b : List (MenuEntry ι)) :
    MenuEntry.items (a ++ b) = MenuEntry.items a ++ MenuEntry.items b := by
  induction a with
  | nil => rfl
  | cons e es ih => cases e <;> simp [MenuEntry.items, ih]

theorem MenuEntry.labels_append {ι : Type} (a b : List (MenuEntry ι)) :
    MenuEntry.labels (a ++ b) = MenuEntry.labels a ++ MenuEntry.labels b := by
  induction a with
  | nil => rfl
  | cons e es ih => cases e <;> simp [MenuEntry.labels, ih]

theorem MenuEntry.items_map_item {α ι : Type} (f : α → ι) (l : List α) :
    MenuEntry.items (l.map fun x => MenuEntry.item (f x)) = l.map f := by
  induction l with
  | nil => rfl
  | cons x xs ih => simp [MenuEntry.items, ih]

theorem MenuEntry.labels_map_item {α ι : Type} (f : α → ι) (l : List α) :
    MenuEntry.labels (l.map fun x => MenuEntry.item (f x)) = [] := by
  induction l with
  | nil => rfl
  | cons x xs ih => simp [MenuEntry.labels, ih]

/-! ## Summaries written by `onChange` -/

/-- C3: after `AudioDeviceChoice::onChange` the text is "(No device)" whenever
the selected device is `-1`. The handler writes "(No device)" with alpha 0.5
exactly when `getDeviceDetail(device, offset)` is empty, and the returned
detail with alpha 1 otherwise, whatever string the call returns; so the text
is never empty. -/
theorem deviceChoice_onChange_summary (io : AudioIO) :
    (io.device = -1 → (AudioDeviceChoice.onChange io).text = "(No device)") ∧
    AudioDeviceChoice.onChange io =
      AudioDeviceChoice.summaryOf (io.getDeviceDetail io.device io.offset) ∧
    (∀ detail : String,
      (AudioDeviceChoice.summaryOf detail = { text := "(No device)", alpha := 1 / 2 } ↔
        detail = "") ∧
      (detail ≠ "" → AudioDeviceChoice.summaryOf detail = { text := detail, alpha := 1 }) ∧
      (AudioDeviceChoice.summaryOf detail).text ≠ "") ∧
    (AudioDeviceChoice.onChange io).text ≠ "" := by
  have hne : ∀ detail : String, (AudioDeviceChoice.summaryOf detail).text ≠ "" := by
    intro detail
    by_cases h : detail = ""
    · simp only [AudioDeviceChoice.summaryOf, if_pos h]
      decide
    · simp only [AudioDeviceChoice.summaryOf, if_neg h]
      exact h
  refine ⟨?_, rfl, ?_, hne _⟩
  · intro h
    simp [AudioDeviceChoice.onChange, AudioDeviceChoice.summaryOf, AudioIO.getDeviceDetail, h]
  · intro detail
    refine ⟨⟨?_, ?_⟩, ?_, hne detail⟩
    · intro h
      by_contra hn
      simp only [AudioDeviceChoice.summaryOf, if_neg hn] at h
      have := congrArg Summary.alpha h
      norm_num at this
    · intro h
      simp [AudioDeviceChoice.summaryOf, h]
    · intro h
      simp [AudioDeviceChoice.summaryOf, h]

/-- The state with no device selected shows "(No device)". -/
theorem deviceChoice_onChange_summary_witness :
    noDeviceState.device = -1 ∧
    (AudioDeviceChoice.onChange noDeviceState).text = "(No device)" :=
  ⟨rfl, (deviceChoice_onChange_summary noDeviceState).1 rfl⟩

/-- C4, as stated, fails: with block size 512 at 44100 Hz the text written by
`AudioBlockSizeChoice::onChange` is "512", which is not "512 (11.6 ms)" and is
not "512 (<latency> ms)" for any latency text. -/
theorem blockSizeChoice_onChange_no_latency :
    sampleState.blockSize = 512 ∧ sampleState.sampleRate = 44100 ∧
    AudioBlockSizeChoice.onChange sampleState = "512" ∧
    AudioBlockSizeChoice.onChange sampleState ≠ "512 (11.6 ms)" ∧
    ¬ ∃ latency : String,
      AudioBlockSizeChoice.onChange sampleState = "512" ++ " (" ++ latency ++ " ms)" := by
  refine ⟨rfl, rfl, by decide, by decide, ?_⟩
  rintro ⟨latency, h⟩
  have h512 : AudioBlockSizeChoice.onChange sampleState = "512" := by decide
  rw [h512] at h
  have := congrArg String.length h
  simp only [String.length_append] at this
  have e1 : "512".length = 3 := by decide
  have e2 : " (".length = 2 := by decide
  have e3 : " ms)".length = 4 := by decide
  omega

/-- C4, amended: `AudioBlockSizeChoice::onChange` writes the `%d` rendering of
the block size alone, the same for every sample rate, and never a text of the
form "<blockSize> (<latency> ms)", whatever the latency text. Texts of that
form are the texts of the items of the menu built by
`AudioBlockSizeChoice::onAction`, one per legal block size in order: the `%d`
rendering of the item's block size, then " (", a latency text fixed by the
block size and the sample rate, then " ms)". The digits of the latency text
are not part of the statement, which holds for every rendering `fmtLatency`. -/
theorem blockSizeChoice_onChange_text (fmtLatency : Int → Int → String) (io : AudioIO) :
    AudioBlockSizeChoice.onChange io = fmtInt io.blockSize ∧
    (∀ sampleRate : Int,
      AudioBlockSizeChoice.onChange { io with sampleRate := sampleRate } =
        AudioBlockSizeChoice.onChange io) ∧
    (∀ latency : String,
      AudioBlockSizeChoice.onChange io ≠ fmtInt io.blockSize ++ " (" ++ latency ++ " ms)") ∧
    (MenuEntry.items (AudioBlockSizeChoice.onAction fmtLatency io)).map (fun i => i.text) =
      io.getBlockSizes.map fun blockSize =>
        fmtInt blockSize ++ " (" ++ fmtLatency blockSize io.sampleRate ++ " ms)" := by
  refine ⟨rfl, fun _ => rfl, ?_, ?_⟩
  · intro latency h
    have := congrArg String.length h
    simp only [AudioBlockSizeChoice.onChange, String.length_append] at this
    have e2 : " (".length = 2 := by decide
    have e3 : " ms)".length = 4 := by decide
    omega
  · simp only [AudioBlockSizeChoice.onAction, MenuEntry.items_append,
      MenuEntry.items_map_item, List.map_map]
    have e : MenuEntry.items
        (if io.getBlockSizes.isEmpty = true then
          [(MenuEntry.label "(Locked by device)" : MenuEntry AudioBlockSizeItem)]
        else []) = [] := by
      split <;> rfl
    rw [e]
    simp [MenuEntry.items, Function.comp_def]

/-! ## The value menus and the calls of the items -/

theorem sampleRateChoice_items (io : AudioIO) :
    MenuEntry.items (AudioSampleRateChoice.onAction io) =
      io.getSampleRates.map fun sampleRate =>
        { text := fmtInt sampleRate ++ " Hz",
          checkmark := decide (sampleRate = io.sampleRate),
          sampleRate := sampleRate } := by
  simp only [AudioSampleRateChoice.onAction, MenuEntry.items_append, MenuEntry.items_map_item]
  have e : MenuEntry.items
      (if io.getSampleRates.isEmpty = true then
        [(MenuEntry.label "(Locked by device)" : MenuEntry AudioSampleRateItem)]
      else []) = [] := by
    split <;> rfl
  rw [e]
  simp [MenuEntry.items]

theorem sampleRateChoice_labels (io : AudioIO) :
    MenuEntry.labels (AudioSampleRateChoice.onAction io) =
      "Sample rate" :: (if io.getSampleRates = [] then ["(Locked by device)"] else []) := by
  simp only [AudioSampleRateChoice.onAction, MenuEntry.labels_append, MenuEntry.labels_map_item]
  cases h : io.getSampleRates <;> simp [MenuEntry.labels]

theorem blockSizeChoice_items (fmtLatency : Int → Int → String) (io : AudioIO) :
    MenuEntry.items (AudioBlockSizeChoice.onAction fmtLatency io) =
      io.getBlockSizes.map fun blockSize =>
        { text := fmtInt blockSize ++ " (" ++ fmtLatency blockSize io.sampleRate ++ " ms)",
          checkmark := decide (blockSize = io.blockSize),
          blockSize := blockSize } := by
  simp only [AudioBlockSizeChoice.onAction, MenuEntry.items_append, MenuEntry.items_map_item]
  have e : MenuEntry.items
      (if io.getBlockSizes.isEmpty = true then
        [(MenuEntry.label "(Locked by device)" : MenuEntry AudioBlockSizeItem)]
      else []) = [] := by
    split <;> rfl
  rw [e]
  simp [MenuEntry.items]

theorem blockSizeChoice_labels (fmtLatency : Int → Int → String) (io : AudioIO) :
    MenuEntry.labels (AudioBlockSizeChoice.onAction fmtLatency io) =
      "Block size" :: (if io.getBlockSizes = [] then ["(Locked by device)"] else []) := by
  simp only [AudioBlockSizeChoice.onAction, MenuEntry.labels_append, MenuEntry.labels_map_item]
  cases h : io.getBlockSizes <;> simp [MenuEntry.labels]

/-- An entry of a menu is a label or one of the menu's items. -/
theorem MenuEntry.mem_cases {ι : Type} {e : MenuEntry ι} {menu : List (MenuEntry ι)}
    (h : e ∈ menu) : (∃ t, e = .label t) ∨ ∃ i, e = .item i ∧ i ∈ MenuEntry.items menu := by
  induction menu with
  | nil => cases h
  | cons x xs ih =>
    rcases List.mem_cons.mp h with rfl | h'
    · cases e with
      | label t => exact Or.inl ⟨t, rfl⟩
      | item i => exact Or.inr ⟨i, rfl, by simp [MenuEntry.items]⟩
    · rcases ih h' with hl | ⟨i, hi, hmem⟩
      · exact Or.inl hl
      · refine Or.inr ⟨i, hi, ?_⟩
        cases x <;> simp [MenuEntry.items, hmem]

/-- C5: in the sample-rate menu and in the block-size menu the label
"(Locked by device)" is present exactly when the reported list is empty; the
selectable items are the elements of the list, in order, and each item's
action passes its own element to `setSampleRate` / `setBlockSize`; so every
call the menu can make carries a member of the reported list, and with an
empty list no entry of the menu makes any call. -/
theorem value_menus_offer_reported_values (fmtLatency : Int → Int → String) (io : AudioIO) :
    (("(Locked by device)" ∈ MenuEntry.labels (AudioSampleRateChoice.onAction io) ↔
        io.getSampleRates = []) ∧
      (MenuEntry.items (AudioSampleRateChoice.onAction io)).map (fun i => i.sampleRate) =
        io.getSampleRates ∧
      (MenuEntry.items (AudioSampleRateChoice.onAction io)).map AudioSampleRateItem.onAction =
        io.getSampleRates.map (fun r => [Call.setSampleRate r, Call.engineSetSampleRate r]) ∧
      (∀ e ∈ AudioSampleRateChoice.onAction io,
        ∀ c ∈ MenuEntry.onAction AudioSampleRateItem.onAction e,
          ∃ r ∈ io.getSampleRates, c = Call.setSampleRate r ∨ c = Call.engineSetSampleRate r) ∧
      (io.getSampleRates = [] →
        ∀ e ∈ AudioSampleRateChoice.onAction io,
          MenuEntry.onAction AudioSampleRateItem.onAction e = [])) ∧
    (("(Locked by device)" ∈ MenuEntry.labels (AudioBlockSizeChoice.onAction fmtLatency io) ↔
        io.getBlockSizes = []) ∧
      (MenuEntry.items (AudioBlockSizeChoice.onAction fmtLatency io)).map (fun i => i.blockSize) =
        io.getBlockSizes ∧
      (MenuEntry.items (AudioBlockSizeChoice.onAction fmtLatency io)).map
          AudioBlockSizeItem.onAction =
        io.getBlockSizes.map (fun b => [Call.setBlockSize b]) ∧
      (∀ e ∈ AudioBlockSizeChoice.onAction fmtLatency io,
        ∀ c ∈ MenuEntry.onAction AudioBlockSizeItem.onAction e,
          ∃ b ∈ io.getBlockSizes, c = Call.setBlockSize b) ∧
      (io.getBlockSizes = [] →
        ∀ e ∈ AudioBlockSizeChoice.onAction fmtLatency io,
          MenuEntry.onAction AudioBlockSizeItem.onAction e = [])) := by
  have hS : ∀ e ∈ AudioSampleRateChoice.onAction io,
      ∀ c ∈ MenuEntry.onAction AudioSampleRateItem.onAction e,
        ∃ r ∈ io.getSampleRates, c = Call.setSampleRate r ∨ c = Call.engineSetSampleRate r := by
    intro e he c hc
    rcases MenuEntry.mem_cases he with ⟨t, rfl⟩ | ⟨i, rfl, hi⟩
    · simp [MenuEntry.onAction] at hc
    · rw [sampleRateChoice_items] at hi
      obtain ⟨r, hr, rfl⟩ := List.mem_map.mp hi
      simp only [MenuEntry.onAction, AudioSampleRateItem.onAction, List.mem_cons,
        List.mem_singleton, List.not_mem_nil, or_false] at hc
      exact ⟨r, hr, hc⟩
  have hB : ∀ e ∈ AudioBlockSizeChoice.onAction fmtLatency io,
      ∀ c ∈ MenuEntry.onAction AudioBlockSizeItem.onAction e,
        ∃ b ∈ io.getBlockSizes, c = Call.setBlockSize b := by
    intro e he c hc
    rcases MenuEntry.mem_cases he with ⟨t, rfl⟩ | ⟨i, rfl, hi⟩
    · simp [MenuEntry.onAction] at hc
    · rw [blockSizeChoice_items] at hi
      obtain ⟨b, hb, rfl⟩ := List.mem_map.mp hi
      simp only [MenuEntry.onAction, AudioBlockSizeItem.onAction, List.mem_singleton] at hc
      exact ⟨b, hb, hc⟩
  refine ⟨⟨?_, ?_, ?_, hS, ?_⟩, ⟨?_, ?_, ?_, hB, ?_⟩⟩
  · rw [sampleRateChoice_labels]
    by_cases h : io.getSampleRates = [] <;> simp [h]
  · rw [sampleRateChoice_items]
    simp [Function.comp_def]
  · rw [sampleRateChoice_items]
    simp [Function.comp_def, AudioSampleRateItem.onAction]
  · intro hnil e he
    apply List.eq_nil_iff_forall_not_mem.mpr
    intro c hc
    obtain ⟨r, hr, _⟩ := hS e he c hc
    rw [hnil] at hr
    cases hr
  · rw [blockSizeChoice_labels]
    by_cases h : io.getBlockSizes = [] <;> simp [h]
  · rw [blockSizeChoice_items]
    simp [Function.comp_def]
  · rw [blockSizeChoice_items]
    simp [Function.comp_def, AudioBlockSizeItem.onAction]
  · intro hnil e he
    apply List.eq_nil_iff_forall_not_mem.mpr
    intro c hc
    obtain ⟨b, hb, _⟩ := hB e he c hc
    rw [hnil] at hb
    cases hb

/-- With a device that reports no legal values both menus show the label
"(Locked by device)" and none of their entries makes a call. -/
theorem value_menus_offer_reported_values_witness :
    "(Locked by device)" ∈ MenuEntry.labels (AudioSampleRateChoice.onAction lockedState) ∧
    (∀ e ∈ AudioSampleRateChoice.onAction lockedState,
      MenuEntry.onAction AudioSampleRateItem.onAction e = []) ∧
    "(Locked by device)" ∈
      MenuEntry.labels (AudioBlockSizeChoice.onAction (fun _ _ => "11.6") lockedState) ∧
    (∀ e ∈ AudioBlockSizeChoice.onAction (fun _ _ => "11.6") lockedState,
      MenuEntry.onAction AudioBlockSizeItem.onAction e = []) :=
  ⟨(value_menus_offer_reported_values (fun _ _ => "11.6") lockedState).1.1.mpr rfl,
   (value_menus_offer_reported_values (fun _ _ => "11.6") lockedState).1.2.2.2.2 rfl,
   (value_menus_offer_reported_values (fun _ _ => "11.6") lockedState).2.1.mpr rfl,
   (value_menus_offer_reported_values (fun _ _ => "11.6") lockedState).2.2.2.2.2 rfl⟩

/-- C6: the action of a sample-rate item calls `setSampleRate(r)` and then
`engineSetSampleRate(r)`, once each, with the item's own rate `r`, and this is
what every item of the sample-rate menu does with the rate it was built for;
the actions of driver, device and block-size items make no
`engineSetSampleRate` call. -/
theorem sampleRate_item_informs_engine (io : AudioIO) :
    (∀ i : AudioSampleRateItem,
      i.onAction = [Call.setSampleRate i.sampleRate, Call.engineSetSampleRate i.sampleRate]) ∧
    (MenuEntry.items (AudioSampleRateChoice.onAction io)).map AudioSampleRateItem.onAction =
      io.getSampleRates.map (fun r => [Call.setSampleRate r, Call.engineSetSampleRate r]) ∧
    (∀ (i : AudioDriverItem) (r : Int), Call.engineSetSampleRate r ∉ i.onAction) ∧
    (∀ (i : AudioDeviceItem) (r : Int), Call.engineSetSampleRate r ∉ i.onAction) ∧
    (∀ (i : AudioBlockSizeItem) (r : Int), Call.engineSetSampleRate r ∉ i.onAction) := by
  refine ⟨fun _ => rfl, ?_, ?_, ?_, ?_⟩
  · rw [sampleRateChoice_items]
    simp [Function.comp_def, AudioSampleRateItem.onAction]
  · intro i r; simp [AudioDriverItem.onAction]
  · intro i r; simp [AudioDeviceItem.onAction]
  · intro i r; simp [AudioBlockSizeItem.onAction]

/-! ## Shape of the device menu, for every state -/

theorem offsetLoop_shape (io : AudioIO) (device channels : Int) :
    ∀ (fuel : Nat) (offset : Int) (menu : List (MenuEntry AudioDeviceItem))
      (r : Int × List (MenuEntry AudioDeviceItem)),
      offsetLoop io device channels fuel offset menu = .ok r →
      ∃ offsets : List Int,
        r.2 = menu ++ offsets.map fun o => MenuEntry.item (deviceItem io device o) := by
  intro fuel
  induction fuel with
  | zero => intro offset menu r h; simp [offsetLoop] at h
  | succ fuel ih =>
    intro offset menu r h
    rw [offsetLoop] at h
    by_cases hlt : offset < channels
    · rw [if_pos hlt] at h
      cases hadd : addInt offset io.maxChannels with
      | error e => rw [hadd] at h; simp at h
      | ok o' =>
        rw [hadd] at h
        simp only at h
        obtain ⟨offsets, ho⟩ := ih _ _ _ h
        exact ⟨offset :: offsets, by simp [ho]⟩
    · rw [if_neg hlt] at h
      cases h
      exact ⟨[], by simp⟩

theorem deviceLoop_shape (io : AudioIO) (deviceCount : Int) :
    ∀ (fuel : Nat) (device : Int) (menu r : List (MenuEntry AudioDeviceItem)),
      deviceLoop io deviceCount fuel device menu = .ok r →
      ∃ pairs : List (Int × Int),
        r = menu ++ (pairs.map fun p => MenuEntry.item (deviceItem io p.1 p.2)) ∧
        ∀ p ∈ pairs, device ≤ p.1 ∧ p.1 < deviceCount := by
  intro fuel
  induction fuel with
  | zero => intro device menu r h; simp [deviceLoop] at h
  | succ fuel ih =>
    intro device menu r h
    rw [deviceLoop] at h
    by_cases hlt : device < deviceCount
    · rw [if_pos hlt] at h
      cases hin : offsetLoop io device (min maxTotalChannels (io.getDeviceChannels device))
          fuel 0 menu with
      | error e => rw [hin] at h; simp at h
      | ok p =>
        obtain ⟨o, menu'⟩ := p
        rw [hin] at h
        simp only at h
        cases hadd : addInt device 1 with
        | error e => rw [hadd] at h; simp at h
        | ok d' =>
          rw [hadd] at h
          simp only at h
          have hd' : d' = device + 1 := by
            unfold addInt at hadd
            split at hadd
            · exact (Except.ok.inj hadd).symm
            · cases hadd
          obtain ⟨offsets, ho⟩ := offsetLoop_shape io device _ fuel 0 menu _ hin
          obtain ⟨pairs, hp, hb⟩ := ih _ _ _ h
          simp only at ho
          refine ⟨offsets.map (fun o => (device, o)) ++ pairs, ?_, ?_⟩
          · rw [hp, ho]
            simp [Function.comp_def]
          · intro p hp'
            rcases List.mem_append.mp hp' with h1 | h2
            · obtain ⟨o', _, rfl⟩ := List.mem_map.mp h1
              exact ⟨le_refl _, hlt⟩
            · have := hb p h2
              omega
    · rw [if_neg hlt] at h
      cases h
      exact ⟨[], by simp, by simp⟩

theorem addInt_eq_ok {a b c : Int} (h : addInt a b = .ok c) : c = a + b := by
  unfold addInt at h
  split at h
  · exact (Except.ok.inj h).symm
  · cases h

/-- With `maxChannels <= 0` the inner loop of a device with a positive channel
count never leaves through its test: no amount of fuel gives a result. -/
theorem offsetLoop_never_ok (io : AudioIO) (device channels : Int)
    (hm : io.maxChannels ≤ 0) (hc : 0 < channels) :
    ∀ (fuel : Nat) (offset : Int) (menu : List (MenuEntry AudioDeviceItem))
      (r : Int × List (MenuEntry AudioDeviceItem)),
      offset ≤ 0 → offsetLoop io device channels fuel offset menu ≠ .ok r := by
  intro fuel
  induction fuel with
  | zero => intro offset menu r _ h; simp [offsetLoop] at h
  | succ fuel ih =>
    intro offset menu r ho h
    rw [offsetLoop, if_pos (by omega)] at h
    cases hadd : addInt offset io.maxChannels with
    | error e => rw [hadd] at h; simp at h
    | ok o' =>
      rw [hadd] at h
      simp only at h
      have := addInt_eq_ok hadd
      exact ih o' _ r (by omega) h

/-- With `maxChannels <= 0` and a device `d` in `[0, deviceCount)` that reports
a positive channel count, the outer loop started at or before `d` gives no
menu, whatever the fuel. -/
theorem deviceLoop_never_ok (io : AudioIO) (deviceCount : Int) (hm : io.maxChannels ≤ 0)
    (d : Int) (hdc : d < deviceCount) (hch : 1 ≤ io.getDeviceChannels d) :
    ∀ (fuel : Nat) (device : Int) (menu r : List (MenuEntry AudioDeviceItem)),
      device ≤ d → deviceLoop io deviceCount fuel device menu ≠ .ok r := by
  intro fuel
  induction fuel with
  | zero => intro device menu r _ h; simp [deviceLoop] at h
  | succ fuel ih =>
    intro device menu r hle h
    rw [deviceLoop, if_pos (by omega)] at h
    cases hin : offsetLoop io device (min maxTotalChannels (io.getDeviceChannels device))
        fuel 0 menu with
    | error e => rw [hin] at h; simp at h
    | ok p =>
      obtain ⟨o, menu'⟩ := p
      by_cases heq : device = d
      · subst heq
        exact offsetLoop_never_ok io device _ hm (by unfold maxTotalChannels; omega)
          fuel 0 menu _ (le_refl 0) hin
      · rw [hin] at h
        simp only at h
        cases hadd : addInt device 1 with
        | error e => rw [hadd] at h; simp at h
        | ok d' =>
          rw [hadd] at h
          simp only at h
          have := addInt_eq_ok hadd
          exact ih d' _ r (by omega) h

/-- When no device from `device` on reports a positive channel count the outer
loop adds nothing and ends, whatever `maxChannels` is. -/
theorem deviceLoop_idle (io : AudioIO) (deviceCount : Int) (hd : deviceCount ≤ INT_MAX) :
    ∀ (fuel : Nat) (device : Int) (menu : List (MenuEntry AudioDeviceItem)),
      0 ≤ device → (deviceCount - device).toNat + 1 < fuel →
      (∀ d : Int, device ≤ d → d < deviceCount → io.getDeviceChannels d ≤ 0) →
      deviceLoop io deviceCount fuel device menu = .ok menu := by
  intro fuel
  induction fuel with
  | zero => intro device menu _ h; omega
  | succ fuel ih =>
    intro device menu h0 hf hall
    rw [deviceLoop]
    by_cases hlt : device < deviceCount
    · rw [if_pos hlt]
      have hch := hall device (le_refl _) hlt
      have hin : offsetLoop io device (min maxTotalChannels (io.getDeviceChannels device))
          fuel 0 menu = .ok (0, menu) := by
        obtain ⟨f, rfl⟩ : ∃ f, fuel = f + 1 := ⟨fuel - 1, by omega⟩
        rw [offsetLoop, if_neg]
        have := min_le_right maxTotalChannels (io.getDeviceChannels device)
        omega
      rw [hin]
      have hadd : addInt device 1 = .ok (device + 1) := by
        apply addInt_ok <;> unfold INT_MIN INT_MAX at * <;> omega
      simp only [hadd]
      exact ih _ _ (by omega) (by omega) (fun d h1 h2 => hall d (by omega) h2)
    · rw [if_neg hlt]

/-- C7, as stated, fails: in the sample state with `maxChannels = 0`, whose
device 0 reports 2 channels, `AudioDeviceChoice::onAction` builds no menu, so
there is no menu to offer "(No device)". -/
theorem deviceMenu_not_built_at_zero_stride :
    stuckState.maxChannels = 0 ∧ stuckState.getDeviceChannels 0 = 2 ∧
    ¬ ∃ (fuel : Nat) (menu : List (MenuEntry AudioDeviceItem)),
      AudioDeviceChoice.onAction stuckState fuel = .ok menu := by
  refine ⟨rfl, rfl, ?_⟩
  rintro ⟨fuel, menu, h⟩
  exact deviceLoop_never_ok stuckState _ (by decide) 0 (by decide) (by decide)
    fuel 0 _ menu (le_refl 0) h

/-- C7, amended: `AudioDeviceChoice::onAction` builds a menu exactly when
`1 <= maxChannels` or no device in `[0, deviceCount)` reports a positive
channel count; and whatever the state (any device count, also 0, any channel
counts, any `maxChannels`), a menu it builds is the heading "Audio device",
then the item "(No device)" with device `-1`, checkmarked exactly when
`audioIO->device == -1`, then only items of devices in `[0, deviceCount)`; so
it has exactly one item "(No device)" with device `-1`. -/
theorem deviceMenu_offers_no_device (io : AudioIO) :
    (∀ (fuel : Nat) (menu : List (MenuEntry AudioDeviceItem)),
      AudioDeviceChoice.onAction io fuel = .ok menu →
      ∃ (noDevice : AudioDeviceItem) (rest : List (MenuEntry AudioDeviceItem)),
        menu = .label "Audio device" :: .item noDevice :: rest ∧
        noDevice.text = "(No device)" ∧ noDevice.device = -1 ∧
        (noDevice.checkmark = true ↔ io.device = -1) ∧
        (∀ e ∈ rest, ∃ i, e = .item i ∧ 0 ≤ i.device ∧ i.device < io.getDeviceCount) ∧
        (MenuEntry.items menu).filter (fun i => decide (i.device = -1)) = [noDevice] ∧
        (MenuEntry.items menu).countP
          (fun i => decide (i.text = "(No device)" ∧ i.device = -1)) = 1) ∧
    (io.maxChannels ≤ INT_MAX → io.getDeviceCount ≤ INT_MAX →
      ((∃ (fuel : Nat) (menu : List (MenuEntry AudioDeviceItem)),
          AudioDeviceChoice.onAction io fuel = .ok menu) ↔
        (1 ≤ io.maxChannels ∨
          ∀ d : Int, 0 ≤ d → d < io.getDeviceCount → io.getDeviceChannels d ≤ 0))) := by
  constructor
  · intro fuel menu h
    obtain ⟨pairs, hp, hb⟩ := deviceLoop_shape io _ fuel 0 _ menu h
    have hrest : ∀ e ∈ pairs.map (fun p => MenuEntry.item (deviceItem io p.1 p.2)),
        ∃ i, e = .item i ∧ 0 ≤ i.device ∧ i.device < io.getDeviceCount := by
      intro e he
      obtain ⟨p, hp', rfl⟩ := List.mem_map.mp he
      exact ⟨_, rfl, (hb p hp').1, (hb p hp').2⟩
    have hfilter : (MenuEntry.items (pairs.map fun p =>
        MenuEntry.item (deviceItem io p.1 p.2))).filter (fun i => decide (i.device = -1)) = [] := by
      rw [MenuEntry.items_map_item, List.filter_eq_nil_iff]
      intro i hi
      obtain ⟨p, hp', rfl⟩ := List.mem_map.mp hi
      have := (hb p hp').1
      simp only [deviceItem, decide_eq_true_eq]
      omega
    have hcount : (MenuEntry.items (pairs.map fun p =>
        MenuEntry.item (deviceItem io p.1 p.2))).countP
          (fun i => decide (i.text = "(No device)" ∧ i.device = -1)) = 0 := by
      rw [MenuEntry.items_map_item, List.countP_eq_zero]
      intro i hi
      obtain ⟨p, hp', rfl⟩ := List.mem_map.mp hi
      have := (hb p hp').1
      simp only [deviceItem, decide_eq_true_eq, not_and]
      intro _
      omega
    refine ⟨noDeviceItem io, _, hp, rfl, rfl, ?_, hrest, ?_, ?_⟩
    · simp only [noDeviceItem, decide_eq_true_eq]
      constructor <;> intro h' <;> omega
    · rw [hp, MenuEntry.items_append, List.filter_append, hfilter]
      simp [MenuEntry.items, noDeviceItem]
    · rw [hp, MenuEntry.items_append, List.countP_append, hcount]
      simp [MenuEntry.items, noDeviceItem]
  · intro hM hd
    constructor
    · rintro ⟨fuel, menu, h⟩
      by_cases hm : 1 ≤ io.maxChannels
      · exact Or.inl hm
      · right
        intro d h0 hlt
        by_contra hch
        exact deviceLoop_never_ok io _ (by omega) d hlt (by omega) fuel 0 _ menu h0 h
    · rintro (hm | hall)
      · exact ⟨io.getDeviceCount.toNat + 130, _, onAction_run io hm hM hd _ (by omega)⟩
      · exact ⟨io.getDeviceCount.toNat + 2, _,
          deviceLoop_idle io _ hd _ 0 _ (le_refl 0) (by omega) hall⟩

/-- The menu of the sample state with no device selected has exactly one item
"(No device)" with device `-1`; and the state with `maxChannels = 0` and no
device builds its menu. -/
theorem deviceMenu_offers_no_device_witness :
    (AudioDeviceChoice.onAction noDeviceState 40 = .ok (deviceMenu noDeviceState) ∧
      (MenuEntry.items (deviceMenu noDeviceState)).countP
        (fun i => decide (i.text = "(No device)" ∧ i.device = -1)) = 1) ∧
    (idleState.maxChannels = 0 ∧
      ∃ (fuel : Nat) (menu : List (MenuEntry AudioDeviceItem)),
        AudioDeviceChoice.onAction idleState fuel = .ok menu) := by
  refine ⟨⟨rfl, ?_⟩, rfl, ?_⟩
  · obtain ⟨_, _, _, _, _, _, _, _, hc⟩ :=
      (deviceMenu_offers_no_device noDeviceState).1 40 (deviceMenu noDeviceState) rfl
    exact hc
  · refine ((deviceMenu_offers_no_device idleState).2 (by decide) (by decide)).mpr (Or.inr ?_)
    intro d h0 hlt
    have : idleState.getDeviceCount = 0 := rfl
    omega

/-! ## Termination and overflow of the loops -/

theorem offsetLoop_overflow_succ (io : AudioIO) (device channels : Int) :
    ∀ (fuel : Nat) (offset : Int) (menu : List (MenuEntry AudioDeviceItem)),
      offsetLoop io device channels fuel offset menu = .error .overflow →
      offsetLoop io device channels (fuel + 1) offset menu = .error .overflow := by
  intro fuel
  induction fuel with
  | zero => intro offset menu h; simp [offsetLoop] at h
  | succ fuel ih =>
    intro offset menu h
    rw [offsetLoop] at h
    rw [offsetLoop]
    by_cases hlt : offset < channels
    · rw [if_pos hlt] at h ⊢
      cases hadd : addInt offset io.maxChannels with
      | error e => rw [hadd] at h; exact h
      | ok o' =>
        rw [hadd] at h
        simp only at h ⊢
        exact ih _ _ h
    · rw [if_neg hlt] at h
      cases h

theorem deviceLoop_overflow_succ (io : AudioIO) (deviceCount : Int) :
    ∀ (fuel : Nat) (device : Int) (menu : List (MenuEntry AudioDeviceItem)),
      deviceLoop io deviceCount fuel device menu = .error .overflow →
      deviceLoop io deviceCount (fuel + 1) device menu = .error .overflow := by
  intro fuel
  induction fuel with
  | zero => intro device menu h; simp [deviceLoop] at h
  | succ fuel ih =>
    intro device menu h
    rw [deviceLoop] at h
    rw [deviceLoop]
    by_cases hlt : device < deviceCount
    · rw [if_pos hlt] at h ⊢
      cases hin : offsetLoop io device (min maxTotalChannels (io.getDeviceChannels device))
          fuel 0 menu with
      | error e =>
        rw [hin] at h
        simp only at h
        cases h
        rw [offsetLoop_overflow_succ io device _ fuel 0 menu hin]
      | ok p =>
        obtain ⟨o, menu'⟩ := p
        rw [hin] at h
        rw [offsetLoop_fuel_succ io device _ fuel 0 menu _ hin]
        simp only at h ⊢
        cases hadd : addInt device 1 with
        | error e => rw [hadd] at h; exact h
        | ok d' =>
          rw [hadd] at h
          simp only at h ⊢
          exact ih _ _ h
    · rw [if_neg hlt] at h
      cases h

theorem deviceLoop_overflow_mono (io : AudioIO) (deviceCount : Int)
    {fuel fuel' : Nat} (hle : fuel ≤ fuel') (device : Int)
    (menu : List (MenuEntry AudioDeviceItem))
    (h : deviceLoop io deviceCount fuel device menu = .error .overflow) :
    deviceLoop io deviceCount fuel' device menu = .error .overflow := by
  induction hle with
  | refl => exact h
  | step _ ih => exact deviceLoop_overflow_succ io deviceCount _ _ _ ih

theorem onAction_no_overflow (io : AudioIO)
    (hm : 1 ≤ io.maxChannels) (hM : io.maxChannels ≤ INT_MAX) (hd : io.getDeviceCount ≤ INT_MAX)
    (fuel : Nat) : AudioDeviceChoice.onAction io fuel ≠ .error .overflow := by
  intro h
  have h1 := deviceLoop_overflow_mono io io.getDeviceCount
    (Nat.le_max_left fuel (io.getDeviceCount.toNat + 130)) 0 _ h
  have h2 := onAction_run io hm hM hd (max fuel (io.getDeviceCount.toNat + 130))
    (by have := Nat.le_max_right fuel (io.getDeviceCount.toNat + 130); omega)
  unfold AudioDeviceChoice.onAction at h2
  rw [h1] at h2
  cases h2

/-- The last pass of the inner loop started below the channel count. -/
theorem itemCount_pred_mul_lt {c m : Int} (hm : 1 ≤ m) (hc : 0 < c) :
    1 ≤ itemCount c m ∧ ((itemCount c m : Int) - 1) * m < c ∧ c ≤ (itemCount c m : Int) * m := by
  unfold itemCount
  have h0 : 1 ≤ (c + m - 1) / m := by
    apply Int.le_ediv_of_mul_le (by omega)
    omega
  have h1 : (c + m - 1) / m * m ≤ c + m - 1 := Int.ediv_mul_le _ (by omega)
  have h2 : c + m - 1 < ((c + m - 1) / m + 1) * m := Int.lt_ediv_add_one_mul_self _ (by omega)
  have e : (((c + m - 1) / m).toNat : Int) = (c + m - 1) / m := Int.toNat_of_nonneg (by omega)
  rw [e]
  refine ⟨by omega, ?_, ?_⟩
  · have : ((c + m - 1) / m - 1) * m = (c + m - 1) / m * m - m := by ring
    omega
  · have : ((c + m - 1) / m + 1) * m = (c + m - 1) / m * m + m := by ring
    omega

/-- Every value the variable `offset` takes in a run of the inner loop from 0
is a non-negative `int`. -/
theorem offset_values_in_range {c m : Int} (hm : 1 ≤ m) (hM : m ≤ INT_MAX)
    (hc : c ≤ maxTotalChannels) (k : Nat) (hk : k ≤ itemCount c m) :
    0 ≤ (k : Int) * m ∧ (k : Int) * m ≤ INT_MAX := by
  have hk0 : 0 ≤ (k : Int) * m := by positivity
  refine ⟨hk0, ?_⟩
  unfold maxTotalChannels at hc
  by_cases hpos : 0 < c
  · obtain ⟨h1, h2, _⟩ := itemCount_pred_mul_lt hm hpos
    by_cases hk1 : k ≤ 1
    · interval_cases k
      · simp [INT_MAX]
      · simpa using hM
    · have hle : (k : Int) * m ≤ (itemCount c m : Int) * m :=
        Int.mul_le_mul_of_nonneg_right (by exact_mod_cast hk) (by omega)
      have e : ((itemCount c m : Int) - 1) * m = (itemCount c m : Int) * m - m := by ring
      have h3 : m ≤ ((itemCount c m : Int) - 1) * m := by
        have : (1 : Int) ≤ (itemCount c m : Int) - 1 := by omega
        calc m = 1 * m := by ring
          _ ≤ ((itemCount c m : Int) - 1) * m := Int.mul_le_mul_of_nonneg_right this (by omega)
      unfold INT_MAX
      omega
  · rw [itemCount_of_nonpos hm (by omega)] at hk
    have : k = 0 := by omega
    subst this
    simp [INT_MAX]

theorem offsetLoop_stuck (io : AudioIO) (device channels : Int)
    (hm : io.maxChannels = 0) (hc : 0 < channels) :
    ∀ (fuel : Nat) (menu : List (MenuEntry AudioDeviceItem)),
      offsetLoop io device channels fuel 0 menu = .error .outOfFuel := by
  intro fuel
  induction fuel with
  | zero => intro menu; rfl
  | succ fuel ih =>
    intro menu
    rw [offsetLoop, if_pos hc, hm]
    have : addInt 0 0 = .ok 0 := rfl
    rw [this]
    exact ih _

theorem offsetLoop_zero_stride (io : AudioIO) (device channels : Int)
    (hm : io.maxChannels = 0) (fuel : Nat) (menu : List (MenuEntry AudioDeviceItem)) :
    offsetLoop io device channels fuel 0 menu = .error .outOfFuel ∨
      offsetLoop io device channels fuel 0 menu = .ok (0, menu) := by
  by_cases hc : 0 < channels
  · exact Or.inl (offsetLoop_stuck io device channels hm hc fuel menu)
  · cases fuel with
    | zero => exact Or.inl rfl
    | succ fuel => right; rw [offsetLoop, if_neg hc]

theorem deviceLoop_stuck (io : AudioIO) (deviceCount : Int) (hm : io.maxChannels = 0)
    (hd : deviceCount ≤ INT_MAX) (d : Int) (hdc : d < deviceCount)
    (hch : 1 ≤ io.getDeviceChannels d) :
    ∀ (fuel : Nat) (device : Int) (menu : List (MenuEntry AudioDeviceItem)),
      0 ≤ device → device ≤ d →
      deviceLoop io deviceCount fuel device menu = .error .outOfFuel := by
  intro fuel
  induction fuel with
  | zero => intro device menu _ _; rfl
  | succ fuel ih =>
    intro device menu h0 hle
    rw [deviceLoop, if_pos (by omega)]
    by_cases heq : device = d
    · subst heq
      rw [offsetLoop_stuck io device _ hm (by unfold maxTotalChannels; omega)]
    · rcases offsetLoop_zero_stride io device
          (min maxTotalChannels (io.getDeviceChannels device)) hm fuel menu with h | h
      · rw [h]
      · rw [h]
        have hadd : addInt device 1 = .ok (device + 1) := by
          apply addInt_ok <;> unfold INT_MIN INT_MAX at * <;> omega
        simp only [hadd]
        exact ih _ _ (by omega) (by omega)

/-- C9: with `1 <= maxChannels <= INT_MAX` the two loops of
`AudioDeviceChoice::onAction` end, for every device count and every channel
function: some amount of fuel gives the menu and no amount of fuel gives an
overflow; the inner loop of each device ends, and every value its variable
`offset` takes (`k * maxChannels` for `k` up to the number of passes) lies in
`[0, INT_MAX]`. With `maxChannels = 0` and a device in `[0, deviceCount)` that
reports at least one channel, the inner loop of that device and the whole
handler run out of every amount of fuel. -/
theorem deviceMenu_loops_total (io : AudioIO)
    (hM : io.maxChannels ≤ INT_MAX) (hd : io.getDeviceCount ≤ INT_MAX) :
    (1 ≤ io.maxChannels →
      (∃ (fuel : Nat) (menu : List (MenuEntry AudioDeviceItem)),
        AudioDeviceChoice.onAction io fuel = .ok menu) ∧
      (∀ fuel : Nat, AudioDeviceChoice.onAction io fuel ≠ .error .overflow) ∧
      (∀ (device : Int) (menu : List (MenuEntry AudioDeviceItem)),
        ∃ (fuel passes : Nat),
          offsetLoop io device (min maxTotalChannels (io.getDeviceChannels device)) fuel 0 menu =
            .ok ((passes : Int) * io.maxChannels, menu ++ offsetItems io device 0 passes) ∧
          ∀ k : Nat, k ≤ passes →
            0 ≤ (k : Int) * io.maxChannels ∧ (k : Int) * io.maxChannels ≤ INT_MAX)) ∧
    (io.maxChannels = 0 →
      ∀ device : Int, 0 ≤ device → device < io.getDeviceCount →
        1 ≤ io.getDeviceChannels device →
        (∀ (fuel : Nat) (menu : List (MenuEntry AudioDeviceItem)),
          offsetLoop io device (min maxTotalChannels (io.getDeviceChannels device)) fuel 0 menu =
            .error .outOfFuel) ∧
        ∀ fuel : Nat, AudioDeviceChoice.onAction io fuel = .error .outOfFuel) := by
  constructor
  · intro hm
    refine ⟨⟨_, _, onAction_run io hm hM hd (io.getDeviceCount.toNat + 130) (by omega)⟩,
      onAction_no_overflow io hm hM hd, ?_⟩
    intro device menu
    have hc : min maxTotalChannels (io.getDeviceChannels device) ≤ maxTotalChannels :=
      min_le_left _ _
    refine ⟨129, itemCount (min maxTotalChannels (io.getDeviceChannels device)) io.maxChannels,
      ?_, ?_⟩
    · have := offsetLoop_run io device _ hm hM hc 129 0 menu (Or.inl rfl)
        (by unfold maxTotalChannels at hc ⊢; omega)
      simpa using this
    · intro k hk
      exact offset_values_in_range hm hM hc k hk
  · intro hm device h0 hlt hch
    refine ⟨offsetLoop_stuck io device _ hm (by unfold maxTotalChannels; omega), ?_⟩
    intro fuel
    exact deviceLoop_stuck io _ hm hd device hlt hch fuel 0 _ (le_refl 0) h0

/-- The sample state builds its menu; with `maxChannels = 0` it never does. -/
theorem deviceMenu_loops_total_witness :
    (∃ (fuel : Nat) (menu : List (MenuEntry AudioDeviceItem)),
      AudioDeviceChoice.onAction sampleState fuel = .ok menu) ∧
    ∀ fuel : Nat, AudioDeviceChoice.onAction stuckState fuel = .error .outOfFuel :=
  ⟨((deviceMenu_loops_total sampleState (by decide) (by decide)).1 (by decide)).1,
   ((deviceMenu_loops_total stuckState (by decide) (by decide)).2 rfl 0 (by decide) (by decide)
      (by decide)).2⟩

/-! ## The items of one device -/

theorem items_offsetItems (io : AudioIO) (device offset : Int) (n : Nat) :
    MenuEntry.items (offsetItems io device offset n) =
      (List.range n).map fun (k : Nat) =>
        deviceItem io device (offset + (k : Int) * io.maxChannels) := by
  unfold offsetItems
  exact MenuEntry.items_map_item _ _

theorem filter_offsetItems (io : AudioIO) (device offset : Int) (n : Nat) (d : Int) :
    (MenuEntry.items (offsetItems io device offset n)).filter (fun i => decide (i.device = d)) =
      if device = d then MenuEntry.items (offsetItems io device offset n) else [] := by
  rw [items_offsetItems]
  split
  · rename_i h
    rw [List.filter_eq_self]
    intro i hi
    obtain ⟨k, _, rfl⟩ := List.mem_map.mp hi
    simpa [deviceItem] using h
  · rename_i h
    rw [List.filter_eq_nil_iff]
    intro i hi
    obtain ⟨k, _, rfl⟩ := List.mem_map.mp hi
    simpa [deviceItem] using h

theorem filter_deviceItems (io : AudioIO) (d : Int) :
    ∀ (k : Nat) (first : Int),
      (MenuEntry.items (deviceItems io first k)).filter (fun i => decide (i.device = d)) =
        if first ≤ d ∧ d < first + (k : Int) then
          MenuEntry.items
            (offsetItems io d 0 (itemCount (shownChannels io d) io.maxChannels))
        else [] := by
  intro k
  induction k with
  | zero =>
    intro first
    have : ¬ (first ≤ d ∧ d < first + ((0 : Nat) : Int)) := by
      simp only [Nat.cast_zero, add_zero]; omega
    rw [if_neg this]
    rfl
  | succ k ih =>
    intro first
    rw [deviceItems_succ, MenuEntry.items_append, List.filter_append, filter_offsetItems, ih]
    by_cases h : first = d
    · subst h
      have h1 : ¬ (first + 1 ≤ first ∧ first < first + 1 + (k : Int)) := by omega
      have h2 : first ≤ first ∧ first < first + ((k + 1 : Nat) : Int) := by
        simp only [Nat.cast_add, Nat.cast_one]; omega
      rw [if_pos rfl, if_neg h1, if_pos h2, List.append_nil]
    · rw [if_neg h, List.nil_append]
      have : (first + 1 ≤ d ∧ d < first + 1 + (k : Int)) ↔
          (first ≤ d ∧ d < first + ((k + 1 : Nat) : Int)) := by
        simp only [Nat.cast_add, Nat.cast_one]; omega
      simp only [this]

/-- The items of device `d` in the closed form of the menu. -/
theorem itemsOfDevice_deviceMenu (io : AudioIO) (d : Int)
    (h0 : 0 ≤ d) (hlt : d < io.getDeviceCount) :
    itemsOfDevice (deviceMenu io) d =
      (List.range (itemCount (shownChannels io d) io.maxChannels)).map fun (k : Nat) =>
        deviceItem io d ((k : Int) * io.maxChannels) := by
  unfold itemsOfDevice deviceMenu
  rw [MenuEntry.items_append, List.filter_append, filter_deviceItems]
  have h1 : (0 : Int) ≤ d ∧ d < 0 + ((io.getDeviceCount.toNat : Nat) : Int) := by omega
  rw [if_pos h1, items_offsetItems]
  have h2 : (MenuEntry.items
      [MenuEntry.label "Audio device", MenuEntry.item (noDeviceItem io)]).filter
        (fun i => decide (i.device = d)) = [] := by
    simp only [MenuEntry.items, noDeviceItem]
    rw [List.filter_eq_nil_iff]
    intro i hi
    simp only [List.mem_singleton] at hi
    subst hi
    simp only [decide_eq_true_eq]
    omega
  rw [h2, List.nil_append]
  simp

/-- The number of passes is the ceiling of `channels / maxChannels`. -/
theorem itemCount_eq_ceil {c m : Int} (hm : 1 ≤ m) (hc : 0 < c) :
    ((itemCount c m : Nat) : Int) = ⌈(c : ℚ) / (m : ℚ)⌉ := by
  obtain ⟨_, h2, h3⟩ := itemCount_pred_mul_lt hm hc
  have hmq : (0 : ℚ) < (m : ℚ) := by exact_mod_cast (by omega : (0 : Int) < m)
  symm
  rw [Int.ceil_eq_iff]
  constructor
  · rw [lt_div_iff₀ hmq]
    exact_mod_cast h2
  · rw [div_le_iff₀ hmq]
    exact_mod_cast h3

/-! ## Offsets and number of the items of a device -/

/-- The offsets carried by the items of device `d`, in menu order. -/
theorem offsets_itemsOfDevice_deviceMenu (io : AudioIO) (d : Int)
    (h0 : 0 ≤ d) (hlt : d < io.getDeviceCount) :
    (itemsOfDevice (deviceMenu io) d).filterMap (fun i => i.offset) =
      (List.range (itemCount (shownChannels io d) io.maxChannels)).map fun (k : Nat) =>
        (k : Int) * io.maxChannels := by
  rw [itemsOfDevice_deviceMenu io d h0 hlt, List.filterMap_map]
  rw [← List.filterMap_eq_map]
  rfl

/-- C1: with `1 <= maxChannels` the handler builds the menu, and in a menu it
builds every item of a device `d` in `[0, deviceCount)` carries an offset that
is a non-negative multiple of `maxChannels` below `getDeviceChannels(d)`; the
offsets of the device are `0, maxChannels, 2 * maxChannels, ...` in menu
order, each the previous one plus `maxChannels`. -/
theorem deviceMenu_offsets_stride (io : AudioIO)
    (hm : 1 ≤ io.maxChannels) (hM : io.maxChannels ≤ INT_MAX)
    (hd : io.getDeviceCount ≤ INT_MAX) :
    (∃ (fuel : Nat) (menu : List (MenuEntry AudioDeviceItem)),
      AudioDeviceChoice.onAction io fuel = .ok menu) ∧
    ∀ (fuel : Nat) (menu : List (MenuEntry AudioDeviceItem)),
      AudioDeviceChoice.onAction io fuel = .ok menu →
      ∀ d : Int, 0 ≤ d → d < io.getDeviceCount →
        (∀ i ∈ itemsOfDevice menu d, ∃ o : Int, i.offset = some o ∧
          0 ≤ o ∧ io.maxChannels ∣ o ∧ o < io.getDeviceChannels d) ∧
        (itemsOfDevice menu d).filterMap (fun i => i.offset) =
          (List.range (itemsOfDevice menu d).length).map
            (fun (k : Nat) => (k : Int) * io.maxChannels) ∧
        List.Chain' (fun a b => a < b ∧ b = a + io.maxChannels)
          ((itemsOfDevice menu d).filterMap (fun i => i.offset)) := by
  refine ⟨⟨_, _, onAction_run io hm hM hd (io.getDeviceCount.toNat + 130) (by omega)⟩, ?_⟩
  intro fuel menu h d h0 hlt
  rw [onAction_eq_deviceMenu io hm hM hd fuel menu h]
  refine ⟨?_, ?_, ?_⟩
  · intro i hi
    rw [itemsOfDevice_deviceMenu io d h0 hlt] at hi
    obtain ⟨k, hk, rfl⟩ := List.mem_map.mp hi
    rw [List.mem_range] at hk
    refine ⟨(k : Int) * io.maxChannels, rfl, by positivity, Dvd.intro_left _ rfl, ?_⟩
    have hpos : 0 < shownChannels io d := by
      by_contra hn
      rw [itemCount_of_nonpos hm (by omega)] at hk
      omega
    obtain ⟨_, h2, _⟩ := itemCount_pred_mul_lt hm hpos
    have hle : (k : Int) * io.maxChannels ≤
        ((itemCount (shownChannels io d) io.maxChannels : Int) - 1) * io.maxChannels :=
      Int.mul_le_mul_of_nonneg_right (by omega) (by omega)
    have hc : shownChannels io d ≤ io.getDeviceChannels d := min_le_right _ _
    omega
  · rw [offsets_itemsOfDevice_deviceMenu io d h0 hlt, itemsOfDevice_deviceMenu io d h0 hlt]
    simp
  · rw [offsets_itemsOfDevice_deviceMenu io d h0 hlt, List.chain'_map]
    generalize itemCount (shownChannels io d) io.maxChannels = n
    cases n with
    | zero => simp
    | succ n =>
      rw [List.chain'_range_succ]
      intro k _
      constructor
      · have : ((k.succ : Nat) : Int) * io.maxChannels = (k : Int) * io.maxChannels +
            io.maxChannels := by push_cast; ring
        omega
      · push_cast; ring

/-- In the menu of the sample state the offsets of device 1 (20 channels,
8 channels per stream) are 0, 8 and 16. -/
theorem deviceMenu_offsets_stride_witness :
    (itemsOfDevice (deviceMenu sampleState) 1).filterMap (fun i => i.offset) =
      (List.range (itemsOfDevice (deviceMenu sampleState) 1).length).map
        (fun (k : Nat) => (k : Int) * sampleState.maxChannels) ∧
    (itemsOfDevice (deviceMenu sampleState) 1).filterMap (fun i => i.offset) = [0, 8, 16] :=
  ⟨((deviceMenu_offsets_stride sampleState (by decide) (by decide) (by decide)).2 40
      (deviceMenu sampleState) rfl 1 (by decide) (by decide)).2.1, by decide⟩

/-- C2: with `1 <= maxChannels`, in a menu built by the handler the number of
items of a device `d` in `[0, deviceCount)` with `c = getDeviceChannels(d)` is
`ceil(min(128, c) / maxChannels)` when `c > 0` and `0` when `c <= 0`; a device
with `c > 128` is listed with exactly `ceil(128 / maxChannels) >= 1` items,
each with an offset below 128. -/
theorem deviceMenu_item_count (io : AudioIO)
    (hm : 1 ≤ io.maxChannels) (hM : io.maxChannels ≤ INT_MAX)
    (hd : io.getDeviceCount ≤ INT_MAX) :
    (∃ (fuel : Nat) (menu : List (MenuEntry AudioDeviceItem)),
      AudioDeviceChoice.onAction io fuel = .ok menu) ∧
    ∀ (fuel : Nat) (menu : List (MenuEntry AudioDeviceItem)),
      AudioDeviceChoice.onAction io fuel = .ok menu →
      ∀ d : Int, 0 ≤ d → d < io.getDeviceCount →
        (0 < io.getDeviceChannels d →
          (((itemsOfDevice menu d).length : Nat) : Int) =
            ⌈((min 128 (io.getDeviceChannels d) : Int) : ℚ) / (io.maxChannels : ℚ)⌉) ∧
        (io.getDeviceChannels d ≤ 0 → (itemsOfDevice menu d).length = 0) ∧
        (128 < io.getDeviceChannels d →
          (((itemsOfDevice menu d).length : Nat) : Int) = ⌈(128 : ℚ) / (io.maxChannels : ℚ)⌉ ∧
          1 ≤ (itemsOfDevice menu d).length ∧
          ∀ i ∈ itemsOfDevice menu d, ∃ o : Int, i.offset = some o ∧ o < 128) := by
  refine ⟨⟨_, _, onAction_run io hm hM hd (io.getDeviceCount.toNat + 130) (by omega)⟩, ?_⟩
  intro fuel menu h d h0 hlt
  rw [onAction_eq_deviceMenu io hm hM hd fuel menu h]
  have hlen : (itemsOfDevice (deviceMenu io) d).length =
      itemCount (shownChannels io d) io.maxChannels := by
    rw [itemsOfDevice_deviceMenu io d h0 hlt]
    simp
  have hshown : shownChannels io d = min 128 (io.getDeviceChannels d) := rfl
  refine ⟨?_, ?_, ?_⟩
  · intro hc
    have hpos : 0 < shownChannels io d := by rw [hshown]; omega
    rw [hlen, itemCount_eq_ceil hm hpos, hshown]
  · intro hc
    rw [hlen]
    exact itemCount_of_nonpos hm (by rw [hshown]; omega)
  · intro hc
    have h128 : shownChannels io d = 128 := by rw [hshown]; omega
    have hpos : 0 < shownChannels io d := by omega
    obtain ⟨h1, h2, _⟩ := itemCount_pred_mul_lt hm hpos
    refine ⟨?_, by omega, ?_⟩
    · rw [hlen, itemCount_eq_ceil hm hpos, h128]
      norm_num
    · intro i hi
      rw [itemsOfDevice_deviceMenu io d h0 hlt] at hi
      obtain ⟨k, hk, rfl⟩ := List.mem_map.mp hi
      rw [List.mem_range] at hk
      refine ⟨(k : Int) * io.maxChannels, rfl, ?_⟩
      have hle : (k : Int) * io.maxChannels ≤
          ((itemCount (shownChannels io d) io.maxChannels : Int) - 1) * io.maxChannels :=
        Int.mul_le_mul_of_nonneg_right (by omega) (by omega)
      omega

/-- Device 2 of the sample state reports 1000 channels and is listed with
`ceil(128 / 8) = 16` items. -/
theorem deviceMenu_item_count_witness :
    (((itemsOfDevice (deviceMenu sampleState) 2).length : Nat) : Int) =
      ⌈(128 : ℚ) / (sampleState.maxChannels : ℚ)⌉ ∧
    (itemsOfDevice (deviceMenu sampleState) 2).length = 16 :=
  ⟨(((deviceMenu_item_count sampleState (by decide) (by decide) (by decide)).2 40
      (deviceMenu sampleState) rfl 2 (by decide) (by decide)).2.2 (by decide)).1, by decide⟩

/-! ## Checkmarks of the device menu -/

/-- The items of the devices `first, ..., first + k - 1` are built by
`deviceItem`, for a device in that range and a non-negative offset, and their
(device, offset) pairs are pairwise distinct. -/
theorem deviceItems_pairs_nodup (io : AudioIO) (hm : 1 ≤ io.maxChannels) :
    ∀ (k : Nat) (first : Int),
      (∀ i ∈ MenuEntry.items (deviceItems io first k),
        ∃ d o : Int, i = deviceItem io d o ∧ first ≤ d ∧ d < first + (k : Int)) ∧
      ((MenuEntry.items (deviceItems io first k)).map fun i => (i.device, i.offset)).Nodup := by
  intro k
  induction k with
  | zero =>
    intro first
    exact ⟨fun i hi => (by cases hi), List.nodup_nil⟩
  | succ k ih =>
    intro first
    obtain ⟨ihm, ihn⟩ := ih (first + 1)
    rw [deviceItems_succ, MenuEntry.items_append, items_offsetItems]
    constructor
    · intro i hi
      rcases List.mem_append.mp hi with h | h
      · obtain ⟨j, _, rfl⟩ := List.mem_map.mp h
        exact ⟨first, _, rfl, le_refl _, by push_cast; omega⟩
      · obtain ⟨d, o, rfl, h1, h2⟩ := ihm i h
        exact ⟨d, o, rfl, by omega, by push_cast; omega⟩
    · rw [List.map_append, List.nodup_append]
      refine ⟨?_, ihn, ?_⟩
      · rw [List.map_map]
        apply List.Nodup.map_on _ (List.nodup_range _)
        intro x _ y _ hxy
        simp only [Function.comp, deviceItem, Prod.mk.injEq, Option.some.injEq, zero_add,
          true_and] at hxy
        have h0 : io.maxChannels ≠ 0 := by omega
        exact_mod_cast Int.eq_of_mul_eq_mul_right h0 hxy
      · intro p hp1 hp2
        obtain ⟨i1, hi1, rfl⟩ := List.mem_map.mp hp1
        obtain ⟨i2, hi2, he⟩ := List.mem_map.mp hp2
        obtain ⟨j, _, rfl⟩ := List.mem_map.mp hi1
        obtain ⟨d, o, rfl, h1, _⟩ := ihm i2 hi2
        simp only [deviceItem, Prod.mk.injEq] at he
        omega

/-- The checkmark of an item built by `deviceItem` says that its pair is the
selected one. -/
theorem deviceItem_checkmark (io : AudioIO) (d o : Int) :
    (deviceItem io d o).checkmark =
      decide (((deviceItem io d o).device, (deviceItem io d o).offset) =
        (io.device, some io.offset)) := by
  simp [deviceItem]

/-- In a list without duplicates at most one element equals `a`. -/
theorem countP_eq_of_nodup {α : Type} [DecidableEq α] (a : α) :
    ∀ l : List α, l.Nodup → l.countP (fun x => decide (x = a)) = if a ∈ l then 1 else 0 := by
  intro l
  induction l with
  | nil => intro _; rfl
  | cons x xs ih =>
    intro h
    obtain ⟨hx, hxs⟩ := List.nodup_cons.mp h
    rw [List.countP_cons, ih hxs]
    by_cases hxa : x = a
    · subst hxa
      simp [hx]
    · have hax : ¬ a = x := fun h' => hxa h'.symm
      simp [hxa, hax]

/-- Among the items of the devices the checkmarked ones are those with the
selected pair. -/
theorem countP_checkmark_deviceItems (io : AudioIO) (hm : 1 ≤ io.maxChannels)
    (k : Nat) (first : Int) :
    (MenuEntry.items (deviceItems io first k)).countP (fun i => i.checkmark) =
      ((MenuEntry.items (deviceItems io first k)).map fun i => (i.device, i.offset)).countP
        (fun p => decide (p = (io.device, some io.offset))) := by
  rw [List.countP_map]
  apply List.countP_congr
  intro i hi
  obtain ⟨d, o, rfl, _, _⟩ := (deviceItems_pairs_nodup io hm k first).1 i hi
  rw [deviceItem_checkmark]
  simp [Function.comp]

/-- The items of the closed form: the "(No device)" item, then the items of
the devices. -/
theorem items_deviceMenu (io : AudioIO) :
    MenuEntry.items (deviceMenu io) =
      noDeviceItem io :: MenuEntry.items (deviceItems io 0 io.getDeviceCount.toNat) := by
  unfold deviceMenu
  rw [MenuEntry.items_append]
  rfl

/-- C10: with `1 <= maxChannels`, in a menu built by
`AudioDeviceChoice::onAction` at most one item is checkmarked; the
(device, offset) pairs of the items other than "(No device)" are pairwise
distinct and have `device >= 0`, none of them is checkmarked when
`audioIO->device == -1`, and exactly one item is checkmarked if and only if
`audioIO->device == -1` or one of these items has the pair
`(audioIO->device, audioIO->offset)`. -/
theorem deviceMenu_checkmark_unique (io : AudioIO)
    (hm : 1 ≤ io.maxChannels) (hM : io.maxChannels ≤ INT_MAX)
    (hd : io.getDeviceCount ≤ INT_MAX) :
    (∃ (fuel : Nat) (menu : List (MenuEntry AudioDeviceItem)),
      AudioDeviceChoice.onAction io fuel = .ok menu) ∧
    ∀ (fuel : Nat) (menu : List (MenuEntry AudioDeviceItem)),
      AudioDeviceChoice.onAction io fuel = .ok menu →
      (MenuEntry.items menu).countP (fun i => i.checkmark) ≤ 1 ∧
      (((MenuEntry.items menu).filter (fun i => decide (i.device ≠ -1))).map
        fun i => (i.device, i.offset)).Nodup ∧
      (∀ i ∈ MenuEntry.items menu, i.device ≠ -1 → 0 ≤ i.device) ∧
      (∀ i ∈ MenuEntry.items menu, i.device ≠ -1 → i.checkmark = true → io.device ≠ -1) ∧
      ((MenuEntry.items menu).countP (fun i => i.checkmark) = 1 ↔
        io.device = -1 ∨
          ∃ i ∈ MenuEntry.items menu,
            i.device ≠ -1 ∧ i.device = io.device ∧ i.offset = some io.offset) := by
  refine ⟨⟨_, _, onAction_run io hm hM hd (io.getDeviceCount.toNat + 130) (by omega)⟩, ?_⟩
  intro fuel menu h
  rw [onAction_eq_deviceMenu io hm hM hd fuel menu h, items_deviceMenu]
  obtain ⟨hreal, hnodup⟩ := deviceItems_pairs_nodup io hm io.getDeviceCount.toNat 0
  have hcount := countP_checkmark_deviceItems io hm io.getDeviceCount.toNat 0
  generalize MenuEntry.items (deviceItems io 0 io.getDeviceCount.toNat) = real at *
  have hge : ∀ i ∈ real, 0 ≤ i.device := by
    intro i hi
    obtain ⟨d, o, rfl, h1, _⟩ := hreal i hi
    exact h1
  have hfilter : (noDeviceItem io :: real).filter (fun i => decide (i.device ≠ -1)) = real := by
    rw [List.filter_cons_of_neg (by simp [noDeviceItem]), List.filter_eq_self]
    intro i hi
    have := hge i hi
    simp only [ne_eq, decide_not, Bool.not_eq_true', decide_eq_false_iff_not]
    omega
  have hle : real.countP (fun i => i.checkmark) ≤ 1 := by
    rw [hcount, countP_eq_of_nodup _ _ hnodup]
    split <;> omega
  have hzero : io.device = -1 → real.countP (fun i => i.checkmark) = 0 := by
    intro hdev
    rw [hcount, countP_eq_of_nodup _ _ hnodup, if_neg]
    intro hmem
    obtain ⟨i, hi, he⟩ := List.mem_map.mp hmem
    have := hge i hi
    simp only [Prod.mk.injEq] at he
    omega
  have hone : real.countP (fun i => i.checkmark) = 1 ↔
      ∃ i ∈ real, i.device = io.device ∧ i.offset = some io.offset := by
    rw [hcount, countP_eq_of_nodup _ _ hnodup]
    constructor
    · intro h1
      have hmem : (io.device, some io.offset) ∈ real.map fun i => (i.device, i.offset) := by
        by_contra hn
        rw [if_neg hn] at h1
        omega
      obtain ⟨i, hi, he⟩ := List.mem_map.mp hmem
      simp only [Prod.mk.injEq] at he
      exact ⟨i, hi, he.1, he.2⟩
    · rintro ⟨i, hi, h1, h2⟩
      rw [if_pos]
      exact List.mem_map.mpr ⟨i, hi, by rw [h1, h2]⟩
  have hcons : (noDeviceItem io :: real).countP (fun i => i.checkmark) =
      real.countP (fun i => i.checkmark) + if io.device = -1 then 1 else 0 := by
    rw [List.countP_cons]
    congr 1
    by_cases hdev : io.device = -1
    · simp [noDeviceItem, hdev]
    · have : ¬ (-1 = io.device) := fun h' => hdev h'.symm
      simp [noDeviceItem, hdev, this]
  refine ⟨?_, ?_, ?_, ?_, ?_⟩
  · rw [hcons]
    by_cases hdev : io.device = -1
    · rw [hzero hdev, if_pos hdev]
    · rw [if_neg hdev]; omega
  · rw [hfilter]
    exact hnodup
  · intro i hi hne
    rcases List.mem_cons.mp hi with rfl | hi'
    · exact absurd rfl hne
    · exact hge i hi'
  · intro i hi hne hck hdev
    rcases List.mem_cons.mp hi with rfl | hi'
    · exact hne rfl
    · have h0 := hzero hdev
      rw [List.countP_eq_zero] at h0
      exact h0 i hi' hck
  · rw [hcons]
    by_cases hdev : io.device = -1
    · rw [hzero hdev, if_pos hdev]
      simp [hdev]
    · rw [if_neg hdev, add_zero, hone]
      constructor
      · rintro ⟨i, hi, h1, h2⟩
        exact Or.inr ⟨i, List.mem_cons_of_mem _ hi, by omega, h1, h2⟩
      · rintro (h' | ⟨i, hi, hne, h1, h2⟩)
        · exact absurd h' hdev
        · rcases List.mem_cons.mp hi with rfl | hi'
          · exact absurd rfl hne
          · exact ⟨i, hi', h1, h2⟩

/-- In the menu of the sample state, with device 1 selected at offset 8,
exactly one item is checkmarked. -/
theorem deviceMenu_checkmark_unique_witness :
    (MenuEntry.items (deviceMenu sampleState)).countP (fun i => i.checkmark) ≤ 1 ∧
    (MenuEntry.items (deviceMenu sampleState)).countP (fun i => i.checkmark) = 1 :=
  ⟨((deviceMenu_checkmark_unique sampleState (by decide) (by decide) (by decide)).2 40
      (deviceMenu sampleState) rfl).1, by decide⟩

end rack
